import Mathlib

/-!
Shallow embedding of the B+ tree visualizer core
(src/components/BPTreeVisualizer.tsx) and proofs about it.

Conventions of the embedding:
* JS strings are Lean `String`s; the JS `<` comparison on strings is Lean's
  lexicographic `<` on `String` (identical on the code points used here).
* A JS field that may be `undefined` is modelled as an `Option`, except
  `TreeNode.children` and `TreeNode.values`, where every consumer of the
  source treats `undefined` exactly like the empty array
  (`children && children[i]`, `children && children.length > 0`,
  `if (n.children) for (...)`), so they are modelled as lists with
  `undefined ↦ []`.
* `Date.now()` timestamps are integers (milliseconds).
* `performance.now()` timing fields (`searchTime`) are display-only and are
  not modelled.
-/

set_option maxHeartbeats 1000000

namespace BPTree

/-- The `type` discriminator of a snapshot node: `'leaf' | 'internal'`. -/
inductive NodeKind where
  | leaf
  | internal
deriving DecidableEq, Repr

/-- Rendering of the discriminator, as interpolated by the source into
step descriptions and display names. -/
def NodeKind.str : NodeKind → String
  | .leaf => "leaf"
  | .internal => "internal"

/-- `TreeNode` from the source:
`{ type, keys, values?, children?, is_leaf, level }`.
`values`/`children` absent in JS are the empty list here (see header). -/
inductive TreeNode where
  | mk : (type : NodeKind) → (keys : List String) → (values : List String) →
      (children : List TreeNode) → (is_leaf : Bool) → (level : Nat) → TreeNode

def TreeNode.type : TreeNode → NodeKind
  | .mk t _ _ _ _ _ => t

def TreeNode.keys : TreeNode → List String
  | .mk _ k _ _ _ _ => k

def TreeNode.values : TreeNode → List String
  | .mk _ _ v _ _ _ => v

def TreeNode.children : TreeNode → List TreeNode
  | .mk _ _ _ c _ _ => c

def TreeNode.is_leaf : TreeNode → Bool
  | .mk _ _ _ _ l _ => l

def TreeNode.level : TreeNode → Nat
  | .mk _ _ _ _ _ lv => lv

mutual

/-- Decidable structural equality on `TreeNode` (the embedding's stand-in for
JS reference identity on immutable snapshot data). -/
def TreeNode.decEq : (a b : TreeNode) → Decidable (a = b)
  | .mk t1 k1 v1 c1 l1 lv1, .mk t2 k2 v2 c2 l2 lv2 =>
    have hc : Decidable (c1 = c2) := TreeNode.decEqList c1 c2
    decidable_of_iff
      (t1 = t2 ∧ k1 = k2 ∧ v1 = v2 ∧ c1 = c2 ∧ l1 = l2 ∧ lv1 = lv2)
      (by rw [TreeNode.mk.injEq])

/-- Pointwise `TreeNode.decEq` on child lists. -/
def TreeNode.decEqList : (a b : List TreeNode) → Decidable (a = b)
  | [], [] => isTrue rfl
  | [], b :: bs => isFalse (by simp)
  | a :: as, [] => isFalse (by simp)
  | a :: as, b :: bs =>
    have h1 : Decidable (a = b) := TreeNode.decEq a b
    have h2 : Decidable (as = bs) := TreeNode.decEqList as bs
    decidable_of_iff (a = b ∧ as = bs) (by rw [List.cons.injEq])

end

instance : DecidableEq TreeNode := TreeNode.decEq

/-- `SearchResult` from the source: `{ found, path, node }`
(the `searchTime` diagnostic field is not modelled). -/
structure SearchResult where
  found : Bool
  path : List String
  node : Option TreeNode
deriving DecidableEq

/-- The step description pushed for each visited node:
the template string `Level ${currentNode.level}: ${currentNode.type} node`. -/
def stepDesc (n : TreeNode) : String :=
  "Level " ++ toString n.level ++ ": " ++ n.type.str ++ " node"

/-- The descent loop of `searchInTree`:
`childIndex = 0; for i: if (key < keys[i]) break; childIndex = i + 1`.
The accumulator `i` is the value `childIndex` holds when the loop has
consumed the keys already passed. -/
def childIndexLoop (key : String) : List String → Nat → Nat
  | [], i => i
  | k :: ks, i => if key < k then i else childIndexLoop key ks (i + 1)

/-- The child index chosen by `searchInTree` at an internal node. -/
def childIndex (keys : List String) (key : String) : Nat :=
  childIndexLoop key keys 0

/-- `searchInTree` from the source, its `while (currentNode)` loop written as
recursion on the current node. Each iteration pushes the step description;
a leaf decides membership (`keys.includes(key)`) and returns
`node = found ? currentNode : null`; an internal node descends to
`children[childIndex]` when present and otherwise breaks out of the loop,
which returns `found = false` with the partial path. -/
def searchInTree (node : TreeNode) (key : String) : SearchResult :=
  if node.is_leaf then
    let found := node.keys.contains key
    { found := found, path := [stepDesc node],
      node := if found then some node else none }
  else
    match h : node.children.get? (childIndex node.keys key) with
    | some c =>
      let r := searchInTree c key
      { found := r.found, path := stepDesc node :: r.path, node := r.node }
    | none => { found := false, path := [stepDesc node], node := none }
termination_by sizeOf node
decreasing_by
  have hmem : c ∈ node.children := List.get?_mem h
  have h1 : sizeOf c < sizeOf node.children := List.sizeOf_lt_of_mem hmem
  have h2 : sizeOf node.children < sizeOf node := by
    cases node with
    | mk t k v ch l lv => simp [TreeNode.children]; omega
  omega

/-- JS `String.prototype.includes` on the character lists of the strings:
true when `sub` occurs contiguously. -/
def jsIncludesList (sub : List Char) : List Char → Bool
  | [] => sub.isEmpty
  | c :: cs => sub.isPrefixOf (c :: cs) || jsIncludesList sub cs

/-- JS `s.includes(sub)`: substring containment. -/
def jsIncludes (s sub : String) : Bool :=
  jsIncludesList sub.data s.data

/-- `D3Node` from the source:
`{ name, children?, nodeType, keys, values?, level, isSearchResult?,
isInSearchPath?, searchFound?, nodeId }`. `isInSearchPath` and `searchFound`
are `undefined` (here `none`) exactly when no search result was supplied. -/
inductive D3Node where
  | mk : (name : String) → (nodeType : NodeKind) → (keys : List String) →
      (values : List String) → (level : Nat) → (isSearchResult : Bool) →
      (isInSearchPath : Option Bool) → (searchFound : Option Bool) →
      (nodeId : String) → (children : Option (List D3Node)) → D3Node

def D3Node.name : D3Node → String
  | .mk nm _ _ _ _ _ _ _ _ _ => nm

def D3Node.nodeType : D3Node → NodeKind
  | .mk _ t _ _ _ _ _ _ _ _ => t

def D3Node.keys : D3Node → List String
  | .mk _ _ k _ _ _ _ _ _ _ => k

def D3Node.values : D3Node → List String
  | .mk _ _ _ v _ _ _ _ _ _ => v

def D3Node.level : D3Node → Nat
  | .mk _ _ _ _ lv _ _ _ _ _ => lv

def D3Node.isSearchResult : D3Node → Bool
  | .mk _ _ _ _ _ sr _ _ _ _ => sr

def D3Node.isInSearchPath : D3Node → Option Bool
  | .mk _ _ _ _ _ _ sp _ _ _ => sp

def D3Node.searchFound : D3Node → Option Bool
  | .mk _ _ _ _ _ _ _ sf _ _ => sf

def D3Node.nodeId : D3Node → String
  | .mk _ _ _ _ _ _ _ _ i _ => i

def D3Node.children : D3Node → Option (List D3Node)
  | .mk _ _ _ _ _ _ _ _ _ c => c

mutual

/-- `convertToD3Format` from the source. `isSearchResult` embeds
`searchResult?.node === node` (reference identity on the immutable snapshot,
here structural equality); `isInSearchPath` embeds
`searchResult?.path.some(p => p.includes("Level " + node.level))`;
children are converted with identities `nodeId ++ "-" ++ index`. -/
def convertToD3Format (node : TreeNode) (searchKey : Option String)
    (searchResult : Option SearchResult) (nodeId : String) : D3Node :=
  let isSearchResult : Bool :=
    match searchResult with
    | none => false
    | some r =>
      match r.node with
      | none => false
      | some m => decide (m = node)
  let isInSearchPath : Option Bool :=
    searchResult.map
      (fun r => r.path.any (fun p => jsIncludes p ("Level " ++ toString node.level)))
  D3Node.mk
    (node.type.str ++ " (Level " ++ toString node.level ++ ")")
    node.type node.keys node.values node.level
    isSearchResult isInSearchPath
    (searchResult.map SearchResult.found) nodeId
    (if node.children.length > 0 then
      some (convertChildren node.children searchKey searchResult nodeId 0)
    else none)
termination_by sizeOf node
decreasing_by
  cases node with
  | mk t k v ch l lv => simp [TreeNode.children]; omega

/-- The `node.children.map((child, index) => convertToD3Format(child, …,
nodeId + "-" + index))` step, with `i` the index of the first remaining
child. -/
def convertChildren (children : List TreeNode) (searchKey : Option String)
    (searchResult : Option SearchResult) (nodeId : String) (i : Nat) : List D3Node :=
  match children with
  | [] => []
  | c :: rest =>
    convertToD3Format c searchKey searchResult (nodeId ++ "-" ++ toString i) ::
      convertChildren rest searchKey searchResult nodeId (i + 1)
termination_by sizeOf children
decreasing_by
  all_goals simp
  all_goals omega

end

/-- `TreeStats` from the source. `averageKeysPerNode` is a rational here
(the source's IEEE double after `toFixed(1)`/`parseFloat`). -/
structure TreeStats where
  depth : Nat
  totalNodes : Nat
  leafNodes : Nat
  totalKeys : Nat
  averageKeysPerNode : ℚ
  treeBalance : String
deriving DecidableEq

mutual

/-- The inner `countNodes` of `calculateTreeStats`: `(total, leaf, keys)`
for the subtree rooted at `n`: itself plus the summed child statistics. -/
def countNodes (n : TreeNode) : Nat × Nat × Nat :=
  let cs := countNodesList n.children
  (1 + cs.1, (if n.is_leaf then 1 else 0) + cs.2.1, n.keys.length + cs.2.2)
termination_by sizeOf n
decreasing_by
  cases n with
  | mk t k v ch l lv => simp [TreeNode.children]; omega

/-- The `for (const child of n.children)` accumulation of `countNodes`. -/
def countNodesList : List TreeNode → Nat × Nat × Nat
  | [] => (0, 0, 0)
  | c :: rest =>
    let s := countNodes c
    let r := countNodesList rest
    (s.1 + r.1, s.2.1 + r.2.1, s.2.2 + r.2.2)
termination_by l => sizeOf l
decreasing_by
  all_goals simp
  all_goals omega

end

/-- Rounding to one decimal (JS `toFixed(1)` on a nonnegative value, i.e.
half away from zero, idealized over ℚ). -/
def roundTo1 (q : ℚ) : ℚ :=
  (⌊q * 10 + 1 / 2⌋ : ℚ) / 10

/-- `calculateTreeStats` from the source. `treeDepth` stands for the
component-state expression `treeData?.depth || 1` which is not derived from
the traversal. -/
def calculateTreeStats (treeDepth : Nat) (node : TreeNode) : TreeStats :=
  let stats := countNodes node
  let avgKeysPerNode : ℚ :=
    if stats.1 > 0 then roundTo1 ((stats.2.2 : ℚ) / (stats.1 : ℚ)) else 0
  let balance : String :=
    if stats.1 ≤ 1 then "Perfect"
    else if stats.1 ≤ 3 then "Good"
    else if stats.1 ≤ 5 then "Fair"
    else "Complex"
  { depth := treeDepth, totalNodes := stats.1, leafNodes := stats.2.1,
    totalKeys := stats.2.2, averageKeysPerNode := avgKeysPerNode,
    treeBalance := balance }

/-- The guard chain at the top of `fetchTreeData`, deciding whether this call
issues a network request. Mirrors, in order: the 10 s rate-limit check, the
30 s debounce check, and the in-flight (`isLoading && !force`) check; a call
that passes all three reaches `axios.get`. Times are `Date.now()`
milliseconds. -/
def fetchTreeDataIssuesRequest (force : Bool) (now lastFetchTime : Int)
    (isLoading : Bool) : Bool :=
  if !force && now - lastFetchTime < 10000 then false
  else if !force && now - lastFetchTime < 30000 then false
  else if isLoading && !force then false
  else true

/-- `const minLoadingTime = 1000` from the `finally` block of
`fetchTreeData`. -/
def minLoadingTime : Int := 1000

/-- The `finally` block of `fetchTreeData`: the delay before `isLoading` is
cleared, computed from `elapsed = Date.now() - loadingStartTime`. The
`loadingStartTime` read here is the React state captured by the callback's
closure — the `setLoadingStartTime(now)` issued earlier in the same call does
not change it, so it is the value from before this attempt (0 until a
previous attempt ran). -/
def fetchFinallyClearDelay (loadingStartTime completionTime : Int) : Int :=
  let elapsed := completionTime - loadingStartTime
  if elapsed < minLoadingTime then minLoadingTime - elapsed else 0

/-- The advisory `POST /api/query` response consumed by `handleSearch`:
`{ success, data }` where only `data.length` is inspected. -/
structure QueryResponse where
  success : Bool
  data : List String
deriving DecidableEq

/-- The corroboration step of `handleSearch`: the locally computed result,
then `if (response.data.success && response.data.data.length > 0)
setSearchResult(prev => ({ ...prev, found: true }))`. A failed request
(`none`) lands in the `catch` block, which only logs. -/
def applyQueryResponse (localResult : SearchResult) (resp : Option QueryResponse) :
    SearchResult :=
  match resp with
  | none => localResult
  | some r =>
    if r.success && r.data.length > 0 then { localResult with found := true }
    else localResult

/-- The node circle fill of the renderer:
`isSearchResult ? (searchFound ? green : "#ef4444") : isInSearchPath ? amber
: (leaf ? green : blue)`; JS truthiness turns an `undefined` flag into the
else branch. -/
def nodeCircleFill (d : D3Node) : String :=
  if d.isSearchResult then
    if d.searchFound.getD false then "url(#leafGradient)" else "#ef4444"
  else if d.isInSearchPath.getD false then "url(#searchGradient)"
  else if d.nodeType = NodeKind.leaf then "url(#leafGradient)"
  else "url(#internalGradient)"

mutual

/-- Specification-side flattening: every node of the tree, in preorder. -/
def allNodes (t : TreeNode) : List TreeNode :=
  t :: allNodesList t.children
termination_by sizeOf t
decreasing_by
  cases t with
  | mk ty k v ch l lv => simp [TreeNode.children]; omega

/-- `allNodes` over a list of roots. -/
def allNodesList : List TreeNode → List TreeNode
  | [] => []
  | c :: rest => allNodes c ++ allNodesList rest
termination_by l => sizeOf l
decreasing_by
  all_goals simp
  all_goals omega

end

/-- Specification-side: the subtree of `t` at a root-to-node child-index
path. -/
def subnodeAt : TreeNode → List Nat → Option TreeNode
  | t, [] => some t
  | t, i :: p => (t.children.get? i).bind (fun c => subnodeAt c p)

/-- The layout node of a converted tree at a child-index path. -/
def d3At : D3Node → List Nat → Option D3Node
  | d, [] => some d
  | d, i :: p =>
    match d.children with
    | none => none
    | some cs =>
      match cs.get? i with
      | none => none
      | some c => d3At c p

/-- Specification-side rendering of a child-index path as an identity
suffix: `-i` per step. -/
def pathSuffix : List Nat → String
  | [] => ""
  | i :: p => "-" ++ toString i ++ pathSuffix p

/-- Specification-side stable identity of the node at path `p`:
`root`, `root-0`, `root-0-2`, …. -/
def specNodeId (p : List Nat) : String :=
  "root" ++ pathSuffix p

/- Example trees used by the spec's test vectors. -/

/-- The left leaf `{keys:["a","b"]}` of the descent test vector. -/
def leafAB : TreeNode := .mk .leaf ["a", "b"] [] [] true 0

/-- The right leaf `{keys:["m","z"]}` of the descent test vector. -/
def leafMZ : TreeNode := .mk .leaf ["m", "z"] [] [] true 0

/-- The root internal node `{keys:["m"], children:[leafAB, leafMZ]}` of the
descent test vector. -/
def rootM : TreeNode := .mk .internal ["m"] [] [leafAB, leafMZ] false 1

/-- The sole root leaf `{keys:["a","b","c"], values:["1","2","3"]}` of the
search test vector. -/
def leafABC : TreeNode := .mk .leaf ["a", "b", "c"] ["1", "2", "3"] [] true 0

/-- A malformed internal node: no keys and no children, so every descent into
it dead-ends. -/
def malformedInner : TreeNode := .mk .internal [] [] [] false 1

/-- A malformed tree: the root routes into `malformedInner`, which has no
children. -/
def malformedRoot : TreeNode := .mk .internal ["m"] [] [malformedInner] false 2

/-- A leaf sitting at level 1, used to probe the path-highlight test. -/
def leafL1 : TreeNode := .mk .leaf ["a"] [] [] true 1

/-- A search result whose path visited only a level-10 internal node. -/
def pathL10 : SearchResult := ⟨false, ["Level 10: internal node"], none⟩

/-- Unfolding lemma: `searchInTree` at a leaf. -/
theorem searchInTree_leaf (n : TreeNode) (key : String) (h : n.is_leaf = true) :
    searchInTree n key =
      { found := n.keys.contains key, path := [stepDesc n],
        node := if n.keys.contains key then some n else none } := by
  rw [searchInTree.eq_def, h]
  simp

/-- Unfolding lemma: `searchInTree` at an internal node whose chosen child is
absent (the `break` out of the while loop). -/
theorem searchInTree_deadEnd (n : TreeNode) (key : String) (h : n.is_leaf = false)
    (h2 : n.children.get? (childIndex n.keys key) = none) :
    searchInTree n key = { found := false, path := [stepDesc n], node := none } := by
  rw [searchInTree.eq_def, h]
  simp only [Bool.false_eq_true, if_false]
  split
  next c heq => rw [h2] at heq; cases heq
  next heq => rfl

/-- Unfolding lemma: `searchInTree` descends to the chosen child when present. -/
theorem searchInTree_step (n : TreeNode) (key : String) (c : TreeNode)
    (h : n.is_leaf = false)
    (h2 : n.children.get? (childIndex n.keys key) = some c) :
    searchInTree n key =
      { found := (searchInTree c key).found,
        path := stepDesc n :: (searchInTree c key).path,
        node := (searchInTree c key).node } := by
  rw [searchInTree.eq_def, h]
  simp only [Bool.false_eq_true, if_false]
  split
  next c' heq => rw [h2] at heq; cases heq; rfl
  next heq => rw [h2] at heq; cases heq

/-- Structural invariant of the search loop: the returned `node` is `none`
when `found` is false, and a matched leaf when `found` is true. -/
theorem searchInTree_node_spec (t : TreeNode) (key : String) :
    ((searchInTree t key).found = false → (searchInTree t key).node = none) ∧
    ((searchInTree t key).found = true →
      ∃ l, (searchInTree t key).node = some l ∧ l.is_leaf = true ∧ key ∈ l.keys) := by
  induction t, key using searchInTree.induct with
  | case1 n key h =>
    rw [searchInTree_leaf n key h]
    cases hc : n.keys.contains key with
    | false => simp
    | true =>
      refine ⟨by simp, fun _ => ⟨n, by simp, h, by simpa using hc⟩⟩
  | case2 n key h c h2 ih =>
    rw [searchInTree_step n key c (by simpa using h) h2]
    exact ih
  | case3 n key h h2 =>
    rw [searchInTree_deadEnd n key (by simpa using h) h2]
    simp

/-- The descent loop computes, offset by its accumulator, the index of the
first key strictly greater than the search key (`findIdx` returns the list
length when no entry satisfies the predicate). -/
theorem childIndexLoop_eq (key : String) :
    ∀ (ks : List String) (i : Nat),
      childIndexLoop key ks i = i + ks.findIdx (fun k => decide (key < k))
  | [], i => by simp [childIndexLoop]
  | k :: ks, i => by
    simp only [childIndexLoop, List.findIdx_cons]
    by_cases h : key < k
    · simp [h]
    · rw [if_neg h, childIndexLoop_eq key ks (i + 1)]
      have hd : decide (key < k) = false := by simpa using h
      rw [hd]
      simp only [cond_false]
      omega

/-- The layout node keeps the identity it was called with. -/
theorem convert_nodeId (n : TreeNode) (sk : Option String) (sr : Option SearchResult)
    (nid : String) : (convertToD3Format n sk sr nid).nodeId = nid := by
  rw [convertToD3Format.eq_def]
  rfl

/-- Unfolding lemma: the `isSearchResult` flag of a converted node. -/
theorem convert_isSearchResult (n : TreeNode) (sk : Option String)
    (sr : Option SearchResult) (nid : String) :
    (convertToD3Format n sk sr nid).isSearchResult =
      (match sr with
      | none => false
      | some r =>
        match r.node with
        | none => false
        | some m => decide (m = n)) := by
  rw [convertToD3Format.eq_def]
  rfl

/-- Unfolding lemma: the `isInSearchPath` flag of a converted node. -/
theorem convert_isInSearchPath (n : TreeNode) (sk : Option String)
    (sr : Option SearchResult) (nid : String) :
    (convertToD3Format n sk sr nid).isInSearchPath =
      sr.map (fun r => r.path.any
        (fun p => jsIncludes p ("Level " ++ toString n.level))) := by
  rw [convertToD3Format.eq_def]
  rfl

/-- Unfolding lemma: the `searchFound` flag of a converted node. -/
theorem convert_searchFound (n : TreeNode) (sk : Option String)
    (sr : Option SearchResult) (nid : String) :
    (convertToD3Format n sk sr nid).searchFound = sr.map SearchResult.found := by
  rw [convertToD3Format.eq_def]
  rfl

/-- Unfolding lemma: the children of a converted node. -/
theorem convert_children_def (n : TreeNode) (sk : Option String)
    (sr : Option SearchResult) (nid : String) :
    (convertToD3Format n sk sr nid).children =
      (if n.children.length > 0 then
        some (convertChildren n.children sk sr nid 0)
      else none) := by
  rw [convertToD3Format.eq_def]
  simp only [D3Node.children]

/-- The list produced by `convertChildren`, indexed: the child at offset `i`
is the conversion of the source child at `i`, with identity suffix
`-(j+i)`. -/
theorem convertChildren_get (sk : Option String) (sr : Option SearchResult)
    (nid : String) :
    ∀ (l : List TreeNode) (j i : Nat),
      (convertChildren l sk sr nid j).get? i =
        (l.get? i).map
          (fun c => convertToD3Format c sk sr (nid ++ "-" ++ toString (j + i)))
  | [], j, i => by
    rw [convertChildren.eq_def]
    simp
  | c :: rest, j, 0 => by
    rw [convertChildren.eq_def]
    simp
  | c :: rest, j, i + 1 => by
    rw [convertChildren.eq_def]
    simp only [List.get?]
    rw [convertChildren_get sk sr nid rest (j + 1) i]
    have : j + 1 + i = j + (i + 1) := by omega
    rw [this]

/-- The layout tree mirrors the source tree path for path: the layout node at
a child-index path is the conversion of the source node at that path, with
the identity extended by the path's suffix. -/
theorem convert_at_path (sk : Option String) (sr : Option SearchResult) :
    ∀ (p : List Nat) (t : TreeNode) (nid : String),
      d3At (convertToD3Format t sk sr nid) p =
        (subnodeAt t p).map
          (fun n => convertToD3Format n sk sr (nid ++ pathSuffix p))
  | [], t, nid => by
    simp [d3At, subnodeAt, pathSuffix]
  | i :: p, t, nid => by
    rw [show d3At (convertToD3Format t sk sr nid) (i :: p) =
      (match (convertToD3Format t sk sr nid).children with
       | none => none
       | some cs =>
         match cs.get? i with
         | none => none
         | some c => d3At c p) from rfl]
    rw [convert_children_def]
    by_cases h : t.children.length > 0
    · rw [if_pos h]
      simp only
      rw [convertChildren_get]
      cases hg : t.children.get? i with
      | none =>
        simp only [subnodeAt, hg, Option.map_none', Option.none_bind]
      | some c =>
        simp only [Option.map_some']
        rw [convert_at_path sk sr p c (nid ++ "-" ++ toString (0 + i))]
        simp only [subnodeAt, hg, Option.some_bind, pathSuffix]
        rw [Nat.zero_add]
        congr 1
        funext n
        congr 1
        simp [String.append_assoc]
    · rw [if_neg h]
      have hnil : t.children = [] := by
        cases hc : t.children with
        | nil => rfl
        | cons a b => rw [hc] at h; simp at h
      simp [subnodeAt, hnil]

mutual

/-- The source's recursive `countNodes` computes the preorder flattening's
node count, leaf count and key total. -/
theorem countNodes_spec (n : TreeNode) :
    countNodes n =
      ((allNodes n).length,
       ((allNodes n).filter (fun m => m.is_leaf)).length,
       ((allNodes n).map (fun m => m.keys.length)).sum) := by
  rw [countNodes.eq_def, allNodes.eq_def]
  rw [countNodesList_spec n.children]
  cases hl : n.is_leaf <;>
    simp [List.filter, hl, Nat.add_comm]
termination_by sizeOf n
decreasing_by
  cases n with
  | mk t k v ch l lv => simp [TreeNode.children]; omega

/-- List form of `countNodes_spec`. -/
theorem countNodesList_spec (l : List TreeNode) :
    countNodesList l =
      ((allNodesList l).length,
       ((allNodesList l).filter (fun m => m.is_leaf)).length,
       ((allNodesList l).map (fun m => m.keys.length)).sum) := by
  match l with
  | [] =>
    rw [countNodesList.eq_def, allNodesList.eq_def]
    simp
  | c :: rest =>
    rw [countNodesList.eq_def, allNodesList.eq_def]
    simp only
    rw [countNodes_spec c, countNodesList_spec rest]
    simp [List.length_append, List.filter_append, List.map_append, List.sum_append]
termination_by sizeOf l
decreasing_by
  all_goals simp
  all_goals omega

end

/-- Concrete evaluation: searching "m" in the two-leaf example tree. -/
theorem searchRootM_m : searchInTree rootM "m" =
    { found := true, path := ["Level 1: internal node", "Level 0: leaf node"],
      node := some leafMZ } := by
  have hm : rootM.children.get? (childIndex rootM.keys "m") = some leafMZ := by
    have : childIndex rootM.keys "m" = 1 := by
      simp [rootM, TreeNode.keys, childIndex, childIndexLoop]
    rw [this]; rfl
  rw [searchInTree_step rootM "m" leafMZ rfl hm]
  rw [searchInTree_leaf leafMZ "m" rfl]
  simp [stepDesc, leafMZ, rootM, TreeNode.keys, TreeNode.level, TreeNode.type,
    NodeKind.str]
  exact ⟨rfl, rfl⟩

/-- Concrete evaluation: searching "c" in the two-leaf example tree. -/
theorem searchRootM_c : searchInTree rootM "c" =
    { found := false, path := ["Level 1: internal node", "Level 0: leaf node"],
      node := none } := by
  have hc : rootM.children.get? (childIndex rootM.keys "c") = some leafAB := by
    have : childIndex rootM.keys "c" = 0 := by
      simp [rootM, TreeNode.keys, childIndex, childIndexLoop]
      decide
    rw [this]; rfl
  rw [searchInTree_step rootM "c" leafAB rfl hc]
  rw [searchInTree_leaf leafAB "c" rfl]
  simp [stepDesc, leafAB, rootM, TreeNode.keys, TreeNode.level, TreeNode.type,
    NodeKind.str]
  exact ⟨rfl, rfl⟩

/-- C1: during descent an internal node routes to `childIndex`, the position
of the first key lexicographically greater than the search key (`len(keys)`
when no key exceeds it); on the root `{keys:["m"], children:[leaf["a","b"],
leaf["m","z"]]}`, search for "m" routes to `children[1]` and finds it, and
search for "c" routes to `children[0]` and misses. -/
theorem C1_descent_routing :
    (∀ (keys : List String) (key : String),
      childIndex keys key = keys.findIdx (fun k => decide (key < k))) ∧
    childIndex rootM.keys "m" = 1 ∧
    childIndex rootM.keys "c" = 0 ∧
    rootM.children.get? 1 = some leafMZ ∧
    rootM.children.get? 0 = some leafAB ∧
    searchInTree rootM "m" =
      { found := true, path := ["Level 1: internal node", "Level 0: leaf node"],
        node := some leafMZ } ∧
    searchInTree rootM "c" =
      { found := false, path := ["Level 1: internal node", "Level 0: leaf node"],
        node := none } := by
  refine ⟨?_, ?_, ?_, rfl, rfl, searchRootM_m, searchRootM_c⟩
  · intro keys key
    rw [childIndex, childIndexLoop_eq]
    simp
  · simp [rootM, TreeNode.keys, childIndex, childIndexLoop]
  · simp [rootM, TreeNode.keys, childIndex, childIndexLoop]
    decide

/-- C2: at a leaf, `found` is exact string membership of the key in the
leaf's `keys`, the matched node is that leaf when found, and on the sole root
leaf `{keys:["a","b","c"]}` searching "b" yields `found = true`,
`path = ["Level 0: leaf node"]` and `matchedNode = root`. -/
theorem C2_leaf_membership :
    (∀ (n : TreeNode) (key : String), n.is_leaf = true →
      (searchInTree n key).found = n.keys.contains key ∧
      (searchInTree n key).path = [stepDesc n] ∧
      (searchInTree n key).node =
        (if n.keys.contains key then some n else none)) ∧
    (∀ (t : TreeNode) (key : String), (searchInTree t key).found = true →
      ∃ l, (searchInTree t key).node = some l ∧ l.is_leaf = true ∧ key ∈ l.keys) ∧
    searchInTree leafABC "b" =
      { found := true, path := ["Level 0: leaf node"], node := some leafABC } := by
  refine ⟨?_, ?_, ?_⟩
  · intro n key h
    rw [searchInTree_leaf n key h]
    exact ⟨rfl, rfl, rfl⟩
  · intro t key h
    exact (searchInTree_node_spec t key).2 h
  · rw [searchInTree_leaf leafABC "b" rfl]
    simp [stepDesc, leafABC, TreeNode.keys, TreeNode.level, TreeNode.type,
      NodeKind.str]
    rfl

/-- Witness for C2 at the concrete leaf `leafABC` and key "b". -/
theorem C2_leaf_membership_witness :
    leafABC.is_leaf = true ∧
    (searchInTree leafABC "b").found = leafABC.keys.contains "b" ∧
    (searchInTree leafABC "b").found = true ∧
    (∃ l, (searchInTree leafABC "b").node = some l ∧ l.is_leaf = true ∧
      "b" ∈ l.keys) := by
  refine ⟨rfl, (C2_leaf_membership.1 leafABC "b" rfl).1, ?_, ?_⟩
  · rw [C2_leaf_membership.2.2]
  · exact C2_leaf_membership.2.1 leafABC "b" (by rw [C2_leaf_membership.2.2])

/-- C5: when the chosen child is absent (malformed tree) the search breaks
out with `found = false`, a `null` node and the partial path collected so
far, with no failure; descent steps prepend their description to the
sub-search's path, so a mid-tree dead end retains every step up to it. -/
theorem C5_deadEnd_degrades :
    (∀ (t : TreeNode) (key : String), t.is_leaf = false →
      t.children.get? (childIndex t.keys key) = none →
      searchInTree t key =
        { found := false, path := [stepDesc t], node := none }) ∧
    (∀ (t : TreeNode) (key : String) (c : TreeNode), t.is_leaf = false →
      t.children.get? (childIndex t.keys key) = some c →
      searchInTree t key =
        { found := (searchInTree c key).found,
          path := stepDesc t :: (searchInTree c key).path,
          node := (searchInTree c key).node }) ∧
    searchInTree malformedRoot "a" =
      { found := false,
        path := ["Level 2: internal node", "Level 1: internal node"],
        node := none } := by
  refine ⟨searchInTree_deadEnd, searchInTree_step, ?_⟩
  have h1 : malformedRoot.children.get? (childIndex malformedRoot.keys "a")
      = some malformedInner := by
    have : childIndex malformedRoot.keys "a" = 0 := by
      simp [malformedRoot, TreeNode.keys, childIndex, childIndexLoop]
      decide
    rw [this]; rfl
  rw [searchInTree_step malformedRoot "a" malformedInner rfl h1]
  rw [searchInTree_deadEnd malformedInner "a" rfl rfl]
  simp [stepDesc, malformedRoot, malformedInner, TreeNode.level, TreeNode.type,
    NodeKind.str]
  exact ⟨rfl, rfl⟩

/-- Witness for C5 at the concrete malformed node and key "a". -/
theorem C5_deadEnd_degrades_witness :
    malformedInner.is_leaf = false ∧
    malformedInner.children.get? (childIndex malformedInner.keys "a") = none ∧
    searchInTree malformedInner "a" =
      { found := false, path := [stepDesc malformedInner], node := none } :=
  ⟨rfl, rfl, C5_deadEnd_degrades.1 malformedInner "a" rfl rfl⟩

/-- C10: an unsuccessful search carries `node = null`, so every layout node
converted against that result has `isSearchResult = false` and the
renderer's matched-and-not-found red fill `"#ef4444"` is unreachable. -/
theorem C10_notFound_no_matched_node :
    ∀ (t : TreeNode) (key : String),
      (searchInTree t key).found = false →
      (searchInTree t key).node = none ∧
      ∀ (sk : Option String) (p : List Nat) (d : D3Node),
        d3At (convertToD3Format t sk (some (searchInTree t key)) "root") p
          = some d →
        d.isSearchResult = false ∧ nodeCircleFill d ≠ "#ef4444" := by
  intro t key hf
  have hnode := (searchInTree_node_spec t key).1 hf
  refine ⟨hnode, ?_⟩
  intro sk p d hd
  rw [convert_at_path] at hd
  cases hsub : subnodeAt t p with
  | none => rw [hsub] at hd; cases hd
  | some n =>
    rw [hsub] at hd
    simp only [Option.map_some'] at hd
    cases hd
    have hsr : (convertToD3Format n sk (some (searchInTree t key))
        ("root" ++ pathSuffix p)).isSearchResult = false := by
      rw [convert_isSearchResult]
      simp [hnode]
    refine ⟨hsr, ?_⟩
    rw [nodeCircleFill, hsr]
    by_cases h2 : (convertToD3Format n sk (some (searchInTree t key))
        ("root" ++ pathSuffix p)).isInSearchPath.getD false
    · simp [h2]
    · by_cases h3 : (convertToD3Format n sk (some (searchInTree t key))
          ("root" ++ pathSuffix p)).nodeType = NodeKind.leaf
      · simp [h2, h3]
      · simp [h2, h3]

/-- Witness for C10 at the concrete miss `search(rootM, "c")`. -/
theorem C10_notFound_no_matched_node_witness :
    (searchInTree rootM "c").found = false ∧
    (searchInTree rootM "c").node = none ∧
    (convertToD3Format rootM none (some (searchInTree rootM "c")) "root").isSearchResult
      = false ∧
    nodeCircleFill
      (convertToD3Format rootM none (some (searchInTree rootM "c")) "root")
      ≠ "#ef4444" := by
  have hf : (searchInTree rootM "c").found = false := by rw [searchRootM_c]
  have h := C10_notFound_no_matched_node rootM "c" hf
  have h2 := h.2 none [] _ rfl
  exact ⟨hf, h.1, h2.1, h2.2⟩

/-- The non-forced guard chain collapses to a single effective condition:
a request is issued iff 30 s have elapsed and no fetch is in flight. -/
theorem fetch_guard_eq (now last : Int) (loading : Bool) :
    fetchTreeDataIssuesRequest false now last loading =
      (decide (30000 ≤ now - last) && !loading) := by
  rw [fetchTreeDataIssuesRequest]
  by_cases h1 : now - last < 10000
  · simp [h1]
    omega
  · by_cases h2 : now - last < 30000
    · simp [h1, h2]
    · by_cases h3 : loading = true
      · simp [h1, h2, h3]
      · simp only [Bool.not_eq_true] at h3
        simp [h1, h2, h3]
        omega

/-- `convert_isSearchResult` specialized to a present search result. -/
theorem convert_isSearchResult_some (n : TreeNode) (sk : Option String)
    (r : SearchResult) (nid : String) :
    (convertToD3Format n sk (some r) nid).isSearchResult =
      (match r.node with
       | none => false
       | some m => decide (m = n)) := by
  rw [convertToD3Format.eq_def]
  rfl

/-- C3 counterexample: a non-forced call 15 s after the last fetch — 10 s or
more, where the claim promises a network call — is skipped by the 30 s
debounce branch. -/
theorem C3_counterexample :
    (10000 : Int) ≤ 15000 - 0 ∧
    fetchTreeDataIssuesRequest false 15000 0 false = false := by
  constructor
  · decide
  · decide

/-- C3 (amended): `force = true` always issues a request; a non-forced call
issues one iff 30 s have elapsed since the last fetch and no fetch is in
flight (the code layers a 10 s and a 30 s window, so the 30 s debounce
dominates); calls under 10 s are still silently skipped, as claimed. -/
theorem C3_amended_rate_limit :
    (∀ (now lastFetchTime : Int) (isLoading : Bool),
      fetchTreeDataIssuesRequest true now lastFetchTime isLoading = true) ∧
    (∀ (now lastFetchTime : Int) (isLoading : Bool),
      fetchTreeDataIssuesRequest false now lastFetchTime isLoading = true ↔
        (30000 ≤ now - lastFetchTime ∧ isLoading = false)) ∧
    (∀ (now lastFetchTime : Int) (isLoading : Bool),
      now - lastFetchTime < 10000 →
      fetchTreeDataIssuesRequest false now lastFetchTime isLoading = false) ∧
    fetchTreeDataIssuesRequest false 15000 0 false = false ∧
    fetchTreeDataIssuesRequest false 30000 0 false = true := by
  refine ⟨?_, ?_, ?_, by decide, by decide⟩
  · intro now last loading
    simp [fetchTreeDataIssuesRequest]
  · intro now last loading
    rw [fetch_guard_eq]
    simp
  · intro now last loading h
    rw [fetch_guard_eq]
    have hnot : ¬ (30000 ≤ now - last) := by omega
    simp [hnot]

/-- Witness for C3 (amended) at a concrete under-10-s call. -/
theorem C3_amended_rate_limit_witness :
    (5000 : Int) - 0 < 10000 ∧
    fetchTreeDataIssuesRequest false 5000 0 false = false :=
  ⟨by decide, C3_amended_rate_limit.2.2.1 5000 0 false (by decide)⟩

/-- C4: the 1 s minimum-loading hold is computed against the stale
`loadingStartTime` captured by the closure, not this attempt's start. On the
initial fetch the stale value is 0, so a 200 ms response clears loading
immediately (delay 0) although under 1 s has passed since the attempt began;
had the attempt's own start been used, the delay would be 800 ms. -/
theorem C4_min_loading_hold_violated :
    fetchFinallyClearDelay 0 1700000000200 = 0 ∧
    (1700000000200 : Int) - 1700000000000 < minLoadingTime ∧
    fetchFinallyClearDelay 1700000000000 1700000000200 = 800 := by
  refine ⟨?_, by decide, ?_⟩ <;> decide

/-- C6: `calculateTreeStats` returns the whole-tree recursive totals — node
count, leaf count, key total — with the average rounded to one decimal and
the balance label bucketed purely by the node count; a single root leaf with
3 keys yields `(1, 1, 3, 3.0, "Perfect")`. -/
theorem C6_stats_totals :
    (∀ (d : Nat) (t : TreeNode),
      (calculateTreeStats d t).totalNodes = (allNodes t).length ∧
      (calculateTreeStats d t).leafNodes =
        ((allNodes t).filter (fun m => m.is_leaf)).length ∧
      (calculateTreeStats d t).totalKeys =
        ((allNodes t).map (fun m => m.keys.length)).sum ∧
      (calculateTreeStats d t).averageKeysPerNode =
        roundTo1 (((((allNodes t).map (fun m => m.keys.length)).sum : ℚ)) /
          (((allNodes t).length : ℚ))) ∧
      (calculateTreeStats d t).treeBalance =
        (if (allNodes t).length ≤ 1 then "Perfect"
         else if (allNodes t).length ≤ 3 then "Good"
         else if (allNodes t).length ≤ 5 then "Fair"
         else "Complex")) ∧
    calculateTreeStats 1 leafABC =
      { depth := 1, totalNodes := 1, leafNodes := 1, totalKeys := 3,
        averageKeysPerNode := 3, treeBalance := "Perfect" } := by
  constructor
  · intro d t
    have hc := countNodes_spec t
    have hpos : 0 < (allNodes t).length := by
      rw [allNodes.eq_def]
      simp
    refine ⟨?_, ?_, ?_, ?_, ?_⟩
    · simp [calculateTreeStats, hc]
    · simp [calculateTreeStats, hc]
    · simp [calculateTreeStats, hc]
    · simp [calculateTreeStats, hc, hpos]
      simp [Function.comp_def]
    · simp [calculateTreeStats, hc]
  · have hAll : allNodes leafABC = [leafABC] := by
      rw [allNodes.eq_def]
      rw [show leafABC.children = [] from rfl]
      rw [allNodesList.eq_def]
    have hcnt : countNodes leafABC = (1, 1, 3) := by
      rw [countNodes_spec, hAll]
      simp [leafABC, TreeNode.is_leaf, TreeNode.keys]
    simp [calculateTreeStats, hcnt]
    norm_num [roundTo1]

/-- C7: layout conversion is deterministic and idempotent — converting the
same `(root, searchResult)` twice gives equal trees — and every layout node's
identity is the `root[-i]*` string spelled by its root-to-node child-index
path. -/
theorem C7_layout_identity :
    (∀ (t : TreeNode) (sk : Option String) (r : Option SearchResult),
      convertToD3Format t sk r "root" = convertToD3Format t sk r "root") ∧
    (∀ (t : TreeNode) (sk : Option String) (r : Option SearchResult)
        (p : List Nat) (d : D3Node),
      d3At (convertToD3Format t sk r "root") p = some d →
      d.nodeId = specNodeId p) := by
  refine ⟨fun t sk r => rfl, ?_⟩
  intro t sk r p d hd
  rw [convert_at_path] at hd
  cases hsub : subnodeAt t p with
  | none => rw [hsub] at hd; cases hd
  | some n =>
    rw [hsub] at hd
    simp only [Option.map_some'] at hd
    cases hd
    rw [convert_nodeId]
    rfl

/-- Witness for C7 at the two-leaf example tree and the empty path. -/
theorem C7_layout_identity_witness :
    d3At (convertToD3Format rootM none none "root") [] =
      some (convertToD3Format rootM none none "root") ∧
    (convertToD3Format rootM none none "root").nodeId = specNodeId [] :=
  ⟨rfl, C7_layout_identity.2 rootM none none [] _ rfl⟩

/-- C8 counterexample: a level-1 leaf converted against a result whose path
holds only "Level 10: internal node" is flagged `isInSearchPath` (the code
tests substring containment of "Level 1"), although its own description
"Level 1: leaf node" is not an element of the path — so flagged-iff-element
fails. -/
theorem C8_counterexample :
    (convertToD3Format leafL1 none (some pathL10) "root").isInSearchPath
      = some true ∧
    stepDesc leafL1 = "Level 1: leaf node" ∧
    ¬ ("Level 1: leaf node" ∈ pathL10.path) := by
  refine ⟨?_, rfl, by decide⟩
  rw [convert_isInSearchPath]
  simp only [Option.map_some']
  congr 1

/-- C8 (amended): with a search result present, a layout node is flagged
`isSearchResult` iff it equals the result's matched node, and is flagged
`isInSearchPath` iff some entry of the result's path contains the substring
`"Level L"` for the node's level `L` (substring containment, not element
equality of the full step description). -/
theorem C8_amended_marks :
    ∀ (t : TreeNode) (sk : Option String) (r : SearchResult) (p : List Nat)
      (d : D3Node) (n : TreeNode),
      d3At (convertToD3Format t sk (some r) "root") p = some d →
      subnodeAt t p = some n →
      ((d.isSearchResult = true ↔ r.node = some n) ∧
       d.isInSearchPath =
         some (r.path.any
           (fun q => jsIncludes q ("Level " ++ toString n.level)))) := by
  intro t sk r p d n hd hsub
  rw [convert_at_path, hsub] at hd
  simp only [Option.map_some'] at hd
  cases hd
  constructor
  · rw [convert_isSearchResult_some]
    cases hn : r.node with
    | none => simp
    | some m => simp
  · rw [convert_isInSearchPath]
    rfl

/-- Witness for C8 (amended) at the level-1 leaf and the level-10 path. -/
theorem C8_amended_marks_witness :
    d3At (convertToD3Format leafL1 none (some pathL10) "root") [] =
      some (convertToD3Format leafL1 none (some pathL10) "root") ∧
    subnodeAt leafL1 [] = some leafL1 ∧
    ((convertToD3Format leafL1 none (some pathL10) "root").isSearchResult = true ↔
      pathL10.node = some leafL1) ∧
    (convertToD3Format leafL1 none (some pathL10) "root").isInSearchPath =
      some (pathL10.path.any
        (fun q => jsIncludes q ("Level " ++ toString leafL1.level))) := by
  have h := C8_amended_marks leafL1 none pathL10 [] _ leafL1 rfl rfl
  exact ⟨rfl, rfl, h.1, h.2⟩

/-- C9: the advisory query merge never changes `path` or `node`, leaves the
result unchanged on failure, and its `found` is the local `found` OR-ed with
the response test — so it can only upgrade not-found to found (exactly when
a successful response carries a non-empty data array), never the reverse. -/
theorem C9_advisory_upgrade_only :
    ∀ (lr : SearchResult) (resp : Option QueryResponse),
      (applyQueryResponse lr resp).path = lr.path ∧
      (applyQueryResponse lr resp).node = lr.node ∧
      applyQueryResponse lr none = lr ∧
      (applyQueryResponse lr resp).found =
        (lr.found ||
          (match resp with
           | none => false
           | some r => r.success && decide (r.data.length > 0))) := by
  intro lr resp
  cases resp with
  | none => simp [applyQueryResponse]
  | some r =>
    cases h : (r.success && decide (r.data.length > 0)) with
    | true => simp [applyQueryResponse, h]
    | false => simp [applyQueryResponse, h]

end BPTree
